import Mathlib

/-!
Shallow embedding of the stock-price service core (registry, value
generator, resolution service, subscription engine tick loop) from the
TypeScript sources, together with theorems about its behaviour.

Randomness is modelled by passing the underlying uniform draws of
`Math.random()` (rationals, with range hypotheses `0 ≤ r < 1` where a
property depends on the range) explicitly as arguments; timestamps are
passed as explicit integer arguments.
-/

/-- Registry entry: display name and baseline value
(`mockStocks` values in the source). -/
structure Stock where
  name : String
  basePrice : ℚ
deriving DecidableEq, Repr

/-- A resolved quote (`GetStockPriceResponse` in the source). -/
structure StockQuote where
  symbol : String
  price : ℚ
  currency : String
  timestamp : ℤ
  change : ℚ
  changePercent : ℚ
deriving DecidableEq, Repr

/-- One streaming emission (`PriceUpdate` in the source). -/
structure PriceUpdate where
  symbol : String
  price : ℚ
  timestamp : ℤ
  volume : ℤ
deriving DecidableEq, Repr

/-- The service error raised for an unknown symbol
(`Stock symbol ${symbol} not found` / `StockNotFoundError`). -/
inductive StockError where
  | notFound (symbol : String)
deriving DecidableEq, Repr

/-- The instrument registry `mockStocks`: an association list, looked up
by symbol. -/
def mockStocks : List (String × Stock) :=
  [ ("AAPL", ⟨"Apple Inc.", 180⟩)
  , ("GOOGL", ⟨"Alphabet Inc.", 140⟩)
  , ("MSFT", ⟨"Microsoft Corp.", 380⟩)
  , ("AMZN", ⟨"Amazon.com Inc.", 170⟩)
  , ("TSLA", ⟨"Tesla Inc.", 250⟩) ]

/-- `generatePrice`: `basePrice * (1 + (random - 0.5) * 0.1)`, with the
uniform draw `r` passed explicitly. -/
def generatePrice (basePrice r : ℚ) : ℚ :=
  basePrice * (1 + (r - 1/2) * (1/10))

/-- `generateChange`: `(random - 0.5) * 10`, with the uniform draw `r`
passed explicitly. -/
def generateChange (r : ℚ) : ℚ :=
  (r - 1/2) * 10

/-- JavaScript `Math.round`: round half towards positive infinity. -/
def jsRound (x : ℚ) : ℤ :=
  ⌊x + 1/2⌋

/-- `Math.round(x * 100) / 100`: round to 2 decimal places. -/
def round2 (x : ℚ) : ℚ :=
  (jsRound (x * 100) : ℚ) / 100

/-- `Math.round(x * 10) / 10`: round to 1 decimal place. -/
def round1 (x : ℚ) : ℚ :=
  (jsRound (x * 10) : ℚ) / 10

/-- `getStockPrice`: look the symbol up in `mockStocks`; fail with the
not-found error if absent, otherwise build the quote from one price draw
`r1` and one change draw `r2` (the change and changePercent fields are
both roundings of the same `generateChange` draw, as in the source). -/
def getStockPrice (symbol : String) (r1 r2 : ℚ) (t : ℤ) :
    Except StockError StockQuote :=
  match mockStocks.lookup symbol with
  | none => .error (.notFound symbol)
  | some stock =>
      .ok { symbol := symbol
          , price := round2 (generatePrice stock.basePrice r1)
          , currency := "USD"
          , timestamp := t
          , change := round2 (generateChange r2)
          , changePercent := round1 (generateChange r2) }

/-- The per-symbol body of `getMultipleStockPrices`: unknown symbols
yield the zero-valued sentinel quote instead of an error. -/
def quoteForSymbol (symbol : String) (r : ℚ × ℚ) (t : ℤ) : StockQuote :=
  match mockStocks.lookup symbol with
  | none =>
      { symbol := symbol, price := 0, currency := "USD"
      , timestamp := t, change := 0, changePercent := 0 }
  | some stock =>
      { symbol := symbol
      , price := round2 (generatePrice stock.basePrice r.1)
      , currency := "USD"
      , timestamp := t
      , change := round2 (generateChange r.2)
      , changePercent := round1 (generateChange r.2) }

/-- `getMultipleStockPrices`: `symbols.map(...)` where each element
consumes a fresh pair of draws from the stream `rnd`. -/
def getMultipleStockPrices : List String → (ℕ → ℚ × ℚ) → ℤ → List StockQuote
  | [], _, _ => []
  | s :: rest, rnd, t =>
      quoteForSymbol s (rnd 0) t ::
        getMultipleStockPrices rest (fun i => rnd (i + 1)) t

theorem getMultipleStockPrices_length (symbols : List String)
    (rnd : ℕ → ℚ × ℚ) (t : ℤ) :
    (getMultipleStockPrices symbols rnd t).length = symbols.length := by
  induction symbols generalizing rnd with
  | nil => rfl
  | cons s rest ih => simp [getMultipleStockPrices, ih]

theorem getMultipleStockPrices_getElem (symbols : List String)
    (rnd : ℕ → ℚ × ℚ) (t : ℤ) (i : ℕ) (h : i < symbols.length) :
    (getMultipleStockPrices symbols rnd t)[i]?
      = some (quoteForSymbol symbols[i] (rnd i) t) := by
  induction symbols generalizing rnd i with
  | nil => simp at h
  | cons s rest ih =>
      cases i with
      | zero => simp [getMultipleStockPrices]
      | succ j =>
          simp only [getMultipleStockPrices, List.getElem?_cons_succ]
          exact ih (fun k => rnd (k + 1)) j (by simpa using h)

/-- **C1.** `getMultipleStockPrices` returns one quote per input symbol,
in order: the output has the same length as the input, the quote at each
position carries the symbol at that position (duplicates preserved), and
the empty input yields the empty output. -/
theorem c1_batch_shape (symbols : List String) (rnd : ℕ → ℚ × ℚ) (t : ℤ) :
    (getMultipleStockPrices symbols rnd t).length = symbols.length ∧
    (∀ i : ℕ, Option.map StockQuote.symbol
        ((getMultipleStockPrices symbols rnd t)[i]?) = symbols[i]?) ∧
    getMultipleStockPrices [] rnd t = [] := by
  refine ⟨getMultipleStockPrices_length symbols rnd t, ?_, rfl⟩
  intro i
  by_cases h : i < symbols.length
  · rw [getMultipleStockPrices_getElem symbols rnd t i h,
      List.getElem?_eq_getElem h]
    cases hq : mockStocks.lookup symbols[i] <;>
      simp [quoteForSymbol, hq]
  · have hlen := getMultipleStockPrices_length symbols rnd t
    rw [List.getElem?_eq_none
        (show (getMultipleStockPrices symbols rnd t).length ≤ i by omega),
      List.getElem?_eq_none (show symbols.length ≤ i by omega)]
    rfl

/-- **C2.** A symbol missing from the registry never fails the batch: it
yields the zero-valued sentinel quote at its position, with the requested
symbol. -/
theorem c2_sentinel_for_unknown (symbols : List String) (rnd : ℕ → ℚ × ℚ)
    (t : ℤ) (i : ℕ) (h : i < symbols.length)
    (hbad : mockStocks.lookup symbols[i] = none) :
    (getMultipleStockPrices symbols rnd t)[i]?
      = some { symbol := symbols[i], price := 0, currency := "USD"
             , timestamp := t, change := 0, changePercent := 0 } := by
  rw [getMultipleStockPrices_getElem symbols rnd t i h]
  simp [quoteForSymbol, hbad]

theorem c2_sentinel_for_unknown_witness :
    (getMultipleStockPrices ["BOGUS"] (fun _ => (0, 0)) 0)[0]?
      = some { symbol := "BOGUS", price := 0, currency := "USD"
             , timestamp := 0, change := 0, changePercent := 0 } :=
  c2_sentinel_for_unknown ["BOGUS"] (fun _ => (0, 0)) 0 0
    (by decide) (by decide)

/-- **C3.** `getStockPrice` fails exactly when the registry lookup fails:
it succeeds iff the symbol is in the registry, an unknown symbol yields
the not-found error carrying that symbol, and a successful quote carries
the requested symbol. -/
theorem c3_fail_iff_unknown (symbol : String) (r1 r2 : ℚ) (t : ℤ) :
    ((∃ q, getStockPrice symbol r1 r2 t = .ok q) ↔
      (∃ v, mockStocks.lookup symbol = some v)) ∧
    (mockStocks.lookup symbol = none →
      getStockPrice symbol r1 r2 t = .error (.notFound symbol)) ∧
    (∀ q, getStockPrice symbol r1 r2 t = .ok q → q.symbol = symbol) := by
  cases h : mockStocks.lookup symbol with
  | none => simp [getStockPrice, h]
  | some stock =>
      refine ⟨by simp [getStockPrice, h], by simp [h], ?_⟩
      intro q hq
      simp only [getStockPrice, h] at hq
      cases hq
      rfl

theorem c3_fail_iff_unknown_witness :
    getStockPrice "BOGUS" 0 0 0 = .error (.notFound "BOGUS") ∧
    (∃ q, getStockPrice "AAPL" 0 0 0 = .ok q) :=
  ⟨(c3_fail_iff_unknown "BOGUS" 0 0 0).2.1 (by decide),
    (c3_fail_iff_unknown "AAPL" 0 0 0).1.mpr ⟨⟨"Apple Inc.", 180⟩, by decide⟩⟩

theorem jsRound_le (x : ℚ) : (jsRound x : ℚ) ≤ x + 1/2 :=
  Int.floor_le _

theorem lt_jsRound (x : ℚ) : x - 1/2 < (jsRound x : ℚ) := by
  have h := Int.sub_one_lt_floor (x + 1/2)
  unfold jsRound
  linarith

theorem round2_mul_int (x : ℚ) : round2 x * 100 = (jsRound (x * 100) : ℚ) := by
  unfold round2
  field_simp

theorem round1_mul_int (x : ℚ) : round1 x * 10 = (jsRound (x * 10) : ℚ) := by
  unfold round1
  field_simp

theorem round2_sub_le (x : ℚ) : |round2 x - x| ≤ 1/200 := by
  have h1 := jsRound_le (x * 100)
  have h2 := lt_jsRound (x * 100)
  rw [abs_le]
  unfold round2
  constructor <;> linarith

theorem round1_sub_le (x : ℚ) : |round1 x - x| ≤ 1/20 := by
  have h1 := jsRound_le (x * 10)
  have h2 := lt_jsRound (x * 10)
  rw [abs_le]
  unfold round1
  constructor <;> linarith

theorem round2_bounds (x L U : ℚ) (a b : ℤ) (ha : (a : ℚ) = L * 100)
    (hb : (b : ℚ) = U * 100) (h1 : L ≤ x) (h2 : x < U) :
    L ≤ round2 x ∧ round2 x ≤ U := by
  have hlo : a ≤ jsRound (x * 100) := by
    apply Int.le_floor.mpr
    rw [ha]
    linarith
  have hhi : jsRound (x * 100) < b + 1 := by
    apply Int.floor_lt.mpr
    push_cast
    rw [hb]
    linarith
  have hlo' : (a : ℚ) ≤ (jsRound (x * 100) : ℚ) := by exact_mod_cast hlo
  have hhi' : (jsRound (x * 100) : ℚ) ≤ (b : ℚ) := by
    have : jsRound (x * 100) ≤ b := by omega
    exact_mod_cast this
  unfold round2
  constructor <;> linarith

theorem round1_bounds (x L U : ℚ) (a b : ℤ) (ha : (a : ℚ) = L * 10)
    (hb : (b : ℚ) = U * 10) (h1 : L ≤ x) (h2 : x < U) :
    L ≤ round1 x ∧ round1 x ≤ U := by
  have hlo : a ≤ jsRound (x * 10) := by
    apply Int.le_floor.mpr
    rw [ha]
    linarith
  have hhi : jsRound (x * 10) < b + 1 := by
    apply Int.floor_lt.mpr
    push_cast
    rw [hb]
    linarith
  have hlo' : (a : ℚ) ≤ (jsRound (x * 10) : ℚ) := by exact_mod_cast hlo
  have hhi' : (jsRound (x * 10) : ℚ) ≤ (b : ℚ) := by
    have : jsRound (x * 10) ≤ b := by omega
    exact_mod_cast this
  unfold round1
  constructor <;> linarith

theorem mockStocks_basePrice (s : String) (v : Stock)
    (h : mockStocks.lookup s = some v) :
    v.basePrice = 180 ∨ v.basePrice = 140 ∨ v.basePrice = 380 ∨
      v.basePrice = 170 ∨ v.basePrice = 250 := by
  simp only [mockStocks, List.lookup] at h
  repeat' split at h
  all_goals (try (injection h with h))
  all_goals first
    | (rw [← h]; simp)
    | simp at h

theorem price_round_bounds (b r : ℚ) (a c : ℤ)
    (ha : (a : ℚ) = b * (95/100) * 100) (hc : (c : ℚ) = b * (105/100) * 100)
    (hb : 0 < b) (h0 : 0 ≤ r) (h1 : r < 1) :
    b * (95/100) ≤ round2 (generatePrice b r) ∧
      round2 (generatePrice b r) ≤ b * (105/100) := by
  apply round2_bounds _ _ _ a c ha hc
  · unfold generatePrice
    nlinarith
  · unfold generatePrice
    nlinarith

/-- **C4.** For a known symbol and uniform draws in `[0,1)`, the quoted
price lies in `[baseline * 0.95, baseline * 1.05]` and the quoted percent
change lies in `[-5, 5]`. -/
theorem c4_price_in_band (symbol : String) (stock : Stock) (r1 r2 : ℚ)
    (t : ℤ) (q : StockQuote)
    (hs : mockStocks.lookup symbol = some stock)
    (h10 : 0 ≤ r1) (h11 : r1 < 1) (h20 : 0 ≤ r2) (h21 : r2 < 1)
    (hq : getStockPrice symbol r1 r2 t = .ok q) :
    stock.basePrice * (95/100) ≤ q.price ∧
    q.price ≤ stock.basePrice * (105/100) ∧
    -5 ≤ q.changePercent ∧ q.changePercent ≤ 5 := by
  simp only [getStockPrice, hs] at hq
  cases hq
  have hcp : -5 ≤ round1 (generateChange r2) ∧ round1 (generateChange r2) ≤ 5 := by
    apply round1_bounds _ _ _ (-50) 50 (by norm_num) (by norm_num)
    · unfold generateChange
      linarith
    · unfold generateChange
      linarith
  rcases mockStocks_basePrice symbol stock hs with h | h | h | h | h <;>
    rw [h] <;>
    [ exact ⟨(price_round_bounds 180 r1 17100 18900 (by norm_num) (by norm_num)
        (by norm_num) h10 h11).1,
        (price_round_bounds 180 r1 17100 18900 (by norm_num) (by norm_num)
        (by norm_num) h10 h11).2, hcp.1, hcp.2⟩;
      exact ⟨(price_round_bounds 140 r1 13300 14700 (by norm_num) (by norm_num)
        (by norm_num) h10 h11).1,
        (price_round_bounds 140 r1 13300 14700 (by norm_num) (by norm_num)
        (by norm_num) h10 h11).2, hcp.1, hcp.2⟩;
      exact ⟨(price_round_bounds 380 r1 36100 39900 (by norm_num) (by norm_num)
        (by norm_num) h10 h11).1,
        (price_round_bounds 380 r1 36100 39900 (by norm_num) (by norm_num)
        (by norm_num) h10 h11).2, hcp.1, hcp.2⟩;
      exact ⟨(price_round_bounds 170 r1 16150 17850 (by norm_num) (by norm_num)
        (by norm_num) h10 h11).1,
        (price_round_bounds 170 r1 16150 17850 (by norm_num) (by norm_num)
        (by norm_num) h10 h11).2, hcp.1, hcp.2⟩;
      exact ⟨(price_round_bounds 250 r1 23750 26250 (by norm_num) (by norm_num)
        (by norm_num) h10 h11).1,
        (price_round_bounds 250 r1 23750 26250 (by norm_num) (by norm_num)
        (by norm_num) h10 h11).2, hcp.1, hcp.2⟩ ]

theorem c4_price_in_band_witness :
    (180 : ℚ) * (95/100) ≤ 171 ∧ (171 : ℚ) ≤ 180 * (105/100) ∧
    (-5 : ℚ) ≤ -5 ∧ (-5 : ℚ) ≤ 5 := by
  have hl : mockStocks.lookup "AAPL" = some ⟨"Apple Inc.", 180⟩ := by decide
  have h := c4_price_in_band "AAPL" ⟨"Apple Inc.", 180⟩ 0 0 0
    { symbol := "AAPL", price := 171, currency := "USD"
    , timestamp := 0, change := -5, changePercent := -5 }
    hl (by norm_num) (by norm_num) (by norm_num) (by norm_num)
    (by simp only [getStockPrice, hl]
        norm_num [round2, round1, jsRound, generatePrice, generateChange])
  exact h

theorem round2_sub_round1 (x : ℚ) : |round2 x - round1 x| ≤ 1/20 := by
  have hA1 := jsRound_le (x * 100)
  have hA2 := lt_jsRound (x * 100)
  have hB1 := jsRound_le (x * 10)
  have hB2 := lt_jsRound (x * 10)
  have hint1 : jsRound (x * 100) - 10 * jsRound (x * 10) < 6 := by
    have h : (jsRound (x * 100) : ℚ) - 10 * (jsRound (x * 10) : ℚ) < 6 := by
      linarith
    exact_mod_cast h
  have hint2 : -6 < jsRound (x * 100) - 10 * jsRound (x * 10) := by
    have h : (-6 : ℚ) < (jsRound (x * 100) : ℚ) - 10 * (jsRound (x * 10) : ℚ) := by
      linarith
    exact_mod_cast h
  have h5 : jsRound (x * 100) - 10 * jsRound (x * 10) ≤ 5 := by omega
  have h5' : -5 ≤ jsRound (x * 100) - 10 * jsRound (x * 10) := by omega
  have hq5 : (jsRound (x * 100) : ℚ) - 10 * (jsRound (x * 10) : ℚ) ≤ 5 := by
    exact_mod_cast h5
  have hq5' : (-5 : ℚ) ≤ (jsRound (x * 100) : ℚ) - 10 * (jsRound (x * 10) : ℚ) := by
    exact_mod_cast h5'
  rw [abs_le]
  unfold round2 round1
  constructor <;> linarith

/-- **C9.** Every successful quote has its price equal to the 2-decimal
rounding of the raw price draw, its change equal to the 2-decimal rounding
of the raw change draw, and its changePercent equal to the 1-decimal
rounding of that draw; each rounded field times `10^k` (k = 2, 2, 1) is an
integer, and each is within half a unit in the last rounded place of the
raw value. -/
theorem c9_rounding (symbol : String) (r1 r2 : ℚ) (t : ℤ) (q : StockQuote)
    (hq : getStockPrice symbol r1 r2 t = .ok q) :
    (∃ stock, mockStocks.lookup symbol = some stock ∧
      q.price = round2 (generatePrice stock.basePrice r1) ∧
      |q.price - generatePrice stock.basePrice r1| ≤ 1/200) ∧
    q.change = round2 (generateChange r2) ∧
    |q.change - generateChange r2| ≤ 1/200 ∧
    q.changePercent = round1 (generateChange r2) ∧
    |q.changePercent - generateChange r2| ≤ 1/20 ∧
    (∃ a : ℤ, q.price * 100 = (a : ℚ)) ∧
    (∃ b : ℤ, q.change * 100 = (b : ℚ)) ∧
    (∃ c : ℤ, q.changePercent * 10 = (c : ℚ)) := by
  cases hs : mockStocks.lookup symbol with
  | none => simp [getStockPrice, hs] at hq
  | some stock =>
      simp only [getStockPrice, hs] at hq
      cases hq
      exact ⟨⟨stock, rfl, rfl, round2_sub_le _⟩, rfl, round2_sub_le _, rfl,
        round1_sub_le _,
        ⟨jsRound (generatePrice stock.basePrice r1 * 100), round2_mul_int _⟩,
        ⟨jsRound (generateChange r2 * 100), round2_mul_int _⟩,
        ⟨jsRound (generateChange r2 * 10), round1_mul_int _⟩⟩

theorem c9_rounding_witness :
    (∃ stock, mockStocks.lookup "AAPL" = some stock ∧
      (171 : ℚ) = round2 (generatePrice stock.basePrice 0) ∧
      |(171 : ℚ) - generatePrice stock.basePrice 0| ≤ 1/200) ∧
    (-5 : ℚ) = round2 (generateChange 0) ∧
    |(-5 : ℚ) - generateChange 0| ≤ 1/200 ∧
    (-5 : ℚ) = round1 (generateChange 0) ∧
    |(-5 : ℚ) - generateChange 0| ≤ 1/20 ∧
    (∃ a : ℤ, (171 : ℚ) * 100 = (a : ℚ)) ∧
    (∃ b : ℤ, (-5 : ℚ) * 100 = (b : ℚ)) ∧
    (∃ c : ℤ, (-5 : ℚ) * 10 = (c : ℚ)) := by
  have hl : mockStocks.lookup "AAPL" = some ⟨"Apple Inc.", 180⟩ := by decide
  exact c9_rounding "AAPL" 0 0 0
    { symbol := "AAPL", price := 171, currency := "USD", timestamp := 0
    , change := -5, changePercent := -5 }
    (by simp only [getStockPrice, hl]
        norm_num [round2, round1, jsRound, generatePrice, generateChange])

/-- **C10.** In every successful quote, change and changePercent are the
2-decimal and 1-decimal roundings of the one shared percent-change draw
(so change is the percent value, not a baseline-scaled amount), and the
two fields differ by at most 0.05. -/
theorem c10_change_same_draw (symbol : String) (r1 r2 : ℚ) (t : ℤ)
    (q : StockQuote) (hq : getStockPrice symbol r1 r2 t = .ok q) :
    q.change = round2 (generateChange r2) ∧
    q.changePercent = round1 (generateChange r2) ∧
    |q.change - q.changePercent| ≤ 1/20 := by
  cases hs : mockStocks.lookup symbol with
  | none => simp [getStockPrice, hs] at hq
  | some stock =>
      simp only [getStockPrice, hs] at hq
      cases hq
      exact ⟨rfl, rfl, round2_sub_round1 _⟩

theorem c10_change_same_draw_witness :
    (-5 : ℚ) = round2 (generateChange 0) ∧
    (-5 : ℚ) = round1 (generateChange 0) ∧
    |(-5 : ℚ) - (-5 : ℚ)| ≤ 1/20 := by
  have hl : mockStocks.lookup "AAPL" = some ⟨"Apple Inc.", 180⟩ := by decide
  exact c10_change_same_draw "AAPL" 0 0 0
    { symbol := "AAPL", price := 171, currency := "USD", timestamp := 0
    , change := -5, changePercent := -5 }
    (by simp only [getStockPrice, hl]
        norm_num [round2, round1, jsRound, generatePrice, generateChange])

/-- One random uniform candidate selection of the tick loop:
`symbols[Math.floor(r * symbols.length)]` (out-of-range indices yield no
symbol, as JavaScript indexing yields `undefined`). -/
def selectSymbol (symbols : List String) (r : ℚ) : Option String :=
  let i := ⌊r * (symbols.length : ℚ)⌋
  if i < 0 then none else symbols[i.toNat]?

/-- The probability that one tick selects `s`: the fraction of the draw
interval `[0,1)` that `selectSymbol` maps to `s`, which by
`c5_selection_by_position` is the multiplicity of `s` in the list over the
list length. -/
def selectionProb (symbols : List String) (s : String) : ℚ :=
  (symbols.count s : ℚ) / symbols.length

/-- Count how many of the given draws make one tick select `s`. -/
def gridCount (symbols : List String) (s : String) (draws : List ℚ) : ℕ :=
  draws.countP (fun r => selectSymbol symbols r == some s)

/-- The three uniform draws consumed by one cadence tick of
`streamPriceUpdates`: symbol selection, price, volume. -/
structure TickDraws where
  sel : ℚ
  price : ℚ
  vol : ℚ

/-- One cadence tick of `streamPriceUpdates`: select a random symbol,
skip the tick (no emission, no error) if the index is out of range or the
symbol is unknown, otherwise emit one update with rounded price and a
volume draw `Math.floor(r * 1000000)`. -/
def streamTick (symbols : List String) (d : TickDraws) (t : ℤ) :
    Option PriceUpdate :=
  (selectSymbol symbols d.sel).bind fun symbol =>
    (mockStocks.lookup symbol).map fun stock =>
      { symbol := symbol
      , price := round2 (generatePrice stock.basePrice d.price)
      , timestamp := t
      , volume := ⌊d.vol * 1000000⌋ }

/-- The emissions of the subscription loop over its first `n` cadence
ticks: skipped ticks contribute nothing. -/
def streamTicks (symbols : List String) (draws : ℕ → TickDraws)
    (times : ℕ → ℤ) (n : ℕ) : List PriceUpdate :=
  (List.range n).filterMap (fun k => streamTick symbols (draws k) (times k))

theorem selectSymbol_mem (symbols : List String) (r : ℚ) (s : String)
    (h : selectSymbol symbols r = some s) : s ∈ symbols := by
  unfold selectSymbol at h
  dsimp only at h
  split at h
  · exact absurd h (by simp)
  · exact List.getElem?_mem h

/-- **C5 (amended).** The tick selection picks the identifier at list
position `⌊r * n⌋` of the supplied identifier list, so the per-tick
selection distribution weights each identifier by its multiplicity
(`count s / length`): it is invariant under reordering of the identifier
list, but not under duplication. -/
theorem c5_selection_by_position (symbols : List String) (r : ℚ) (i : ℕ)
    (h1 : (i : ℚ) ≤ r * symbols.length) (h2 : r * symbols.length < i + 1)
    (M : List String) (hp : symbols.Perm M) (s : String) :
    selectSymbol symbols r = symbols[i]? ∧
    selectionProb symbols s = selectionProb M s := by
  constructor
  · have hfl : ⌊r * (symbols.length : ℚ)⌋ = (i : ℤ) := by
      rw [Int.floor_eq_iff]
      refine ⟨by exact_mod_cast h1, by push_cast; exact h2⟩
    simp only [selectSymbol, hfl]
    rw [if_neg (by omega)]
    rfl
  · unfold selectionProb
    rw [hp.count_eq, hp.length_eq]

theorem c5_selection_by_position_witness :
    selectSymbol ["AAPL", "GOOGL"] (1/2) = some "GOOGL" ∧
    selectionProb ["AAPL", "GOOGL"] "AAPL"
      = selectionProb ["GOOGL", "AAPL"] "AAPL" := by
  have h := c5_selection_by_position ["AAPL", "GOOGL"] (1/2) 1
    (by norm_num) (by norm_num) ["GOOGL", "AAPL"] (by decide) "AAPL"
  simpa using h

/-- **C5 counterexample.** Two identifier lists denoting the same
instrument set — `["AAPL", "AAPL", "GOOGL"]` and `["AAPL", "GOOGL"]` —
give different selection frequencies for "AAPL" over the uniform grid of
draws `{0, 1/6, ..., 5/6}` (4 of 6 versus 3 of 6), so the per-tick
selection distribution is not invariant under duplication. -/
theorem c5_duplication_changes_distribution :
    gridCount ["AAPL", "AAPL", "GOOGL"] "AAPL" [0, 1/6, 2/6, 3/6, 4/6, 5/6] = 4 ∧
    gridCount ["AAPL", "GOOGL"] "AAPL" [0, 1/6, 2/6, 3/6, 4/6, 5/6] = 3 ∧
    (["AAPL", "AAPL", "GOOGL"] : List String).toFinset
      = (["AAPL", "GOOGL"] : List String).toFinset ∧
    selectionProb ["AAPL", "AAPL", "GOOGL"] "AAPL"
      ≠ selectionProb ["AAPL", "GOOGL"] "AAPL" := by
  refine ⟨?_, ?_, by decide,
    by norm_num [selectionProb, List.count_cons, List.count_nil,
      show ¬("GOOGL" = "AAPL") by decide]⟩ <;>
    (norm_num [gridCount, selectSymbol, List.countP_cons]; decide)

/-- **C6.** A tick whose selected identifier is unknown to the registry
produces no emission and no error, and a subscription whose identifier
list is empty or entirely unknown emits nothing over any bounded number
of ticks. -/
theorem c6_unknown_ticks_skip (symbols : List String)
    (draws : ℕ → TickDraws) (times : ℕ → ℤ) (n : ℕ) :
    (∀ d t s, selectSymbol symbols d.sel = some s →
      mockStocks.lookup s = none → streamTick symbols d t = none) ∧
    ((∀ s ∈ symbols, mockStocks.lookup s = none) →
      streamTicks symbols draws times n = []) := by
  constructor
  · intro d t s hsel hnone
    simp [streamTick, hsel, hnone]
  · intro h
    unfold streamTicks
    rw [List.filterMap_eq_nil_iff]
    intro k _
    cases hsel : selectSymbol symbols (draws k).sel with
    | none => simp [streamTick, hsel]
    | some s =>
        have hs : s ∈ symbols := selectSymbol_mem symbols _ s hsel
        simp [streamTick, hsel, h s hs]

theorem c6_unknown_ticks_skip_witness :
    streamTicks ["INVALID"] (fun _ => ⟨0, 0, 0⟩) (fun _ => 0) 3 = [] :=
  (c6_unknown_ticks_skip ["INVALID"] (fun _ => ⟨0, 0, 0⟩)
    (fun _ => 0) 3).2 (by decide)

theorem mockStocks_basePrice_ge (s : String) (v : Stock)
    (h : mockStocks.lookup s = some v) : 140 ≤ v.basePrice := by
  rcases mockStocks_basePrice s v h with hb | hb | hb | hb | hb <;>
    rw [hb] <;> norm_num

/-- **C7.** Over `n` cadence ticks a subscription emits at most `n`
events, and every emitted event carries a subscribed symbol, a price
strictly greater than zero, and a volume that is a non-negative integer
strictly below 1,000,000 (given the uniform draws lie in `[0,1)`). -/
theorem c7_event_bounds (symbols : List String) (draws : ℕ → TickDraws)
    (times : ℕ → ℤ) (n : ℕ) (e : PriceUpdate)
    (hd : ∀ k, 0 ≤ (draws k).price ∧ (draws k).price < 1 ∧
      0 ≤ (draws k).vol ∧ (draws k).vol < 1)
    (he : e ∈ streamTicks symbols draws times n) :
    (streamTicks symbols draws times n).length ≤ n ∧
    e.symbol ∈ symbols ∧ 0 < e.price ∧ 0 ≤ e.volume ∧ e.volume < 1000000 := by
  constructor
  · calc (streamTicks symbols draws times n).length
        ≤ (List.range n).length := List.length_filterMap_le _ _
      _ = n := List.length_range n
  · obtain ⟨k, _, he'⟩ := List.mem_filterMap.mp he
    obtain ⟨hp0, hp1, hv0, hv1⟩ := hd k
    simp only [streamTick, Option.bind_eq_some, Option.map_eq_some'] at he'
    obtain ⟨s, hsel, stock, hlk, he''⟩ := he'
    subst he''
    refine ⟨selectSymbol_mem symbols _ s hsel, ?_, ?_, ?_⟩
    · have hb := mockStocks_basePrice_ge s stock hlk
      have hraw : 133 ≤ generatePrice stock.basePrice (draws k).price := by
        unfold generatePrice
        nlinarith
      have hclose := round2_sub_le
        (generatePrice stock.basePrice (draws k).price)
      rw [abs_le] at hclose
      show (0 : ℚ) < round2 (generatePrice stock.basePrice (draws k).price)
      linarith [hclose.2]
    · show (0 : ℤ) ≤ ⌊(draws k).vol * 1000000⌋
      apply Int.floor_nonneg.mpr
      nlinarith
    · show ⌊(draws k).vol * 1000000⌋ < 1000000
      apply Int.floor_lt.mpr
      push_cast
      nlinarith

theorem c7_event_bounds_witness :
    (streamTicks ["AAPL"] (fun _ => ⟨0, 0, 0⟩) (fun _ => 0) 1).length ≤ 1 ∧
    ("AAPL" : String) ∈ ["AAPL"] ∧ (0 : ℚ) < 171 ∧
    (0 : ℤ) ≤ 0 ∧ (0 : ℤ) < 1000000 := by
  have hsel : selectSymbol ["AAPL"] 0 = some "AAPL" := by
    norm_num [selectSymbol]
  have hl : mockStocks.lookup "AAPL" = some ⟨"Apple Inc.", 180⟩ := by decide
  have hst : streamTick ["AAPL"] ⟨0, 0, 0⟩ 0
      = some ⟨"AAPL", 171, 0, 0⟩ := by
    simp only [streamTick, hsel, hl, Option.bind_some, Option.map_some]
    norm_num [round2, jsRound, generatePrice]
    exact ⟨⟨"Apple Inc.", 180⟩, hl, by norm_num⟩
  have hmem : (⟨"AAPL", 171, 0, 0⟩ : PriceUpdate)
      ∈ streamTicks ["AAPL"] (fun _ => ⟨0, 0, 0⟩) (fun _ => 0) 1 := by
    unfold streamTicks
    simp [List.range_succ, hst]
  exact c7_event_bounds ["AAPL"] (fun _ => ⟨0, 0, 0⟩) (fun _ => 0) 1
    ⟨"AAPL", 171, 0, 0⟩ (fun k => by norm_num) hmem
